import Mathlib

/-!
# TheGame: the simulation core of `main.js`

A shallow embedding of the per-frame simulation of `src/main.js`
(key handling, key rebinding, shooting, target spawning, collision
detection, locomotion and the projectile pass), together with the
properties of it that the specification states.

Numbers are exact rationals: a value of type `ℚ` is a finite JavaScript
number.  A computation that can leave the finite numbers returns an `Option`,
and `none` means that a non-finite number (`NaN` or an infinity) was
computed.  The only such computation in the code is the division inside
`Vector3.normalize`; it is threaded through `locomotion`, `animate`, `step`
and `run`.  Two functions of the JavaScript host are taken as parameters
wherever the code calls them:

* `sqrt`, standing for `Math.sqrt` (used by `Vector3.length` and
  `Vector3.distanceTo`);
* `toLowerCase`, standing for `String.prototype.toLowerCase`.

The pieces of three.js (r152) that the code calls, `Vector3` and `Box3`,
are embedded from the library's own definitions.

Left out, because nothing that is modelled reads them: sounds, the mission
text, rendering, window resizing, and the bullet meshes in the scene (they
are added and removed together with the entries of `bullets`).  The delay of
`setTimeout` is abstracted: a scheduled respawn callback is pending until an
event fires it.
-/

namespace TheGame

/-! ## three.js `Vector3` -/

/-- The three.js `Vector3`: a triple of numbers. -/
structure Vector3 where
  x : ℚ
  y : ℚ
  z : ℚ
  deriving DecidableEq, Repr

namespace Vector3

/-- Method `a.add(v)`: component-wise sum. -/
def add (a v : Vector3) : Vector3 :=
  ⟨a.x + v.x, a.y + v.y, a.z + v.z⟩

/-- Method `a.multiplyScalar(s)`. -/
def multiplyScalar (a : Vector3) (s : ℚ) : Vector3 :=
  ⟨a.x * s, a.y * s, a.z * s⟩

/-- Method `a.divideScalar(s)`, which is `a.multiplyScalar(1 / s)` in three.js.
In JavaScript `1 / 0` is `Infinity` and every product with it is `NaN` or
infinite, so for `s = 0` no component of the result is finite: the result is
`none`. -/
def divideScalar (a : Vector3) (s : ℚ) : Option Vector3 :=
  if s = 0 then none else some (a.multiplyScalar (1 / s))

/-- Method `a.length()`: `Math.sqrt(x*x + y*y + z*z)`. -/
def length (sqrt : ℚ → ℚ) (a : Vector3) : ℚ :=
  sqrt (a.x * a.x + a.y * a.y + a.z * a.z)

/-- The divisor of `normalize`: the JavaScript expression `this.length() || 1`,
which is `1` when the length is zero. -/
def normalizeDivisor (sqrt : ℚ → ℚ) (a : Vector3) : ℚ :=
  if a.length sqrt = 0 then 1 else a.length sqrt

/-- Method `a.normalize()`: `this.divideScalar(this.length() || 1)`. -/
def normalize (sqrt : ℚ → ℚ) (a : Vector3) : Option Vector3 :=
  a.divideScalar (a.normalizeDivisor sqrt)

/-- Method `r.crossVectors(a, b)`: the cross product `a × b`. -/
def crossVectors (a b : Vector3) : Vector3 :=
  ⟨a.y * b.z - a.z * b.y, a.z * b.x - a.x * b.z, a.x * b.y - a.y * b.x⟩

/-- Method `a.distanceToSquared(v)`. -/
def distanceToSquared (a v : Vector3) : ℚ :=
  (a.x - v.x) * (a.x - v.x) + (a.y - v.y) * (a.y - v.y) + (a.z - v.z) * (a.z - v.z)

/-- Method `a.distanceTo(v)`: `Math.sqrt(this.distanceToSquared(v))`. -/
def distanceTo (sqrt : ℚ → ℚ) (a v : Vector3) : ℚ :=
  sqrt (a.distanceToSquared v)

end Vector3

/-! ## three.js `Box3` -/

/-- The three.js `Box3`: an axis-aligned box given by two corners. -/
structure Box3 where
  min : Vector3
  max : Vector3
  deriving DecidableEq, Repr

/-- Method `a.intersectsBox(box)`, as three.js writes it: the boxes are disjoint when
they are separated along one of the three axes. -/
def Box3.intersectsBox (a box : Box3) : Bool :=
  if box.max.x < a.min.x ∨ box.min.x > a.max.x ∨
     box.max.y < a.min.y ∨ box.min.y > a.max.y ∨
     box.max.z < a.min.z ∨ box.min.z > a.max.z then false else true

/-- The box `new Box3().setFromObject(mesh)` for an unrotated, unscaled mesh whose
geometry has the bounding box `[-h, h]³`, placed at `position`. -/
def Box3.setFromObject (h : ℚ) (position : Vector3) : Box3 :=
  ⟨⟨position.x - h, position.y - h, position.z - h⟩,
   ⟨position.x + h, position.y + h, position.z + h⟩⟩

/-- Half extent of `BoxGeometry(1, 1, 1)`, the enemy's geometry. -/
def enemyHalfExtent : ℚ := 1 / 2

/-- Half extent of the bounding box of `SphereGeometry(0.1, 8, 8)`, the bullet's
geometry.  The sphere's vertices are stored as 32-bit floats and the box is
computed from the stored values, so the half extent is the 32-bit rounding of
`0.1`, which is `13421773 / 2^27` (about `0.1000000015`), on each axis. -/
def bulletHalfExtent : ℚ := 13421773 / 134217728

/-! ## Game state -/

/-- The four logical actions. -/
inductive Action where
  | forward | backward | left | right
  deriving DecidableEq, Repr

/-- The object `controlsMapping`: the key bound to each action. -/
structure ControlsMapping where
  forward : String
  backward : String
  left : String
  right : String
  deriving DecidableEq, Repr

/-- The key bound to an action. -/
def ControlsMapping.get (m : ControlsMapping) : Action → String
  | .forward => m.forward
  | .backward => m.backward
  | .left => m.left
  | .right => m.right

/-- The object `movement`: the held flag of each action. -/
structure Movement where
  forward : Bool
  backward : Bool
  left : Bool
  right : Bool
  deriving DecidableEq, Repr

/-- The held flag of an action. -/
def Movement.get (m : Movement) : Action → Bool
  | .forward => m.forward
  | .backward => m.backward
  | .left => m.left
  | .right => m.right

/-- An entry of the array `bullets`: the position of its mesh and its
direction. -/
structure Bullet where
  position : Vector3
  direction : Vector3
  deriving DecidableEq, Repr

/-- An enemy mesh: its object identity and its position. -/
structure Mesh where
  id : Nat
  position : Vector3
  deriving DecidableEq, Repr

/-- The mutable globals of `main.js` that the simulation reads and writes. -/
structure Game where
  /-- The vector `camera.position`. -/
  camera : Vector3
  /-- The camera's world direction, as `camera.getWorldDirection` returns it. -/
  cameraDirection : Vector3
  /-- The flag `controls.isLocked`. -/
  isLocked : Bool
  /-- The flag `gameStarted`. -/
  gameStarted : Bool
  controlsMapping : ControlsMapping
  movement : Movement
  bullets : List Bullet
  /-- The variable `enemy`; `none` is `undefined` or `null`. -/
  enemy : Option Mesh
  /-- The enemy meshes that are children of `scene`. -/
  sceneEnemies : List Mesh
  /-- The number of respawn callbacks scheduled by `setTimeout` and not yet run. -/
  pendingRespawns : Nat
  /-- The number of enemy meshes created so far (the next object identity). -/
  nextId : Nat
  deriving DecidableEq, Repr

/-- The state right after the script has been loaded. -/
def Game.initial : Game where
  camera := ⟨0, 2, 0⟩
  cameraDirection := ⟨0, 0, -1⟩
  isLocked := false
  gameStarted := false
  controlsMapping := ⟨"w", "s", "a", "d"⟩
  movement := ⟨false, false, false, false⟩
  bullets := []
  enemy := none
  sceneEnemies := []
  pendingRespawns := 0
  nextId := 0

/-! ## Keyboard handlers and key rebinding -/

/-- The `keydown` listener: every action bound to the lower-cased key becomes
held. -/
def keydown (toLowerCase : String → String) (g : Game) (eventKey : String) : Game :=
  let key := toLowerCase eventKey
  let g := if key = g.controlsMapping.forward then
    { g with movement := { g.movement with forward := true } } else g
  let g := if key = g.controlsMapping.backward then
    { g with movement := { g.movement with backward := true } } else g
  let g := if key = g.controlsMapping.left then
    { g with movement := { g.movement with left := true } } else g
  let g := if key = g.controlsMapping.right then
    { g with movement := { g.movement with right := true } } else g
  g

/-- The `keyup` listener: every action bound to the lower-cased key is
released. -/
def keyup (toLowerCase : String → String) (g : Game) (eventKey : String) : Game :=
  let key := toLowerCase eventKey
  let g := if key = g.controlsMapping.forward then
    { g with movement := { g.movement with forward := false } } else g
  let g := if key = g.controlsMapping.backward then
    { g with movement := { g.movement with backward := false } } else g
  let g := if key = g.controlsMapping.left then
    { g with movement := { g.movement with left := false } } else g
  let g := if key = g.controlsMapping.right then
    { g with movement := { g.movement with right := false } } else g
  g

/-- JavaScript truthiness of what `prompt` returns: `null` (the dialog was
cancelled) and the empty string are falsy, every other string is truthy. -/
def truthy : Option String → Bool
  | none => false
  | some s => s != ""

/-- The string inside a truthy `prompt` result. -/
def promptText : Option String → String
  | none => ""
  | some s => s

/-- The click listener of `changeControlsBtn`, given the four `prompt`
results: each truthy answer replaces the binding of its action by the
lower-cased answer. -/
def changeControls (toLowerCase : String → String) (g : Game)
    (newForward newBackward newLeft newRight : Option String) : Game :=
  let g := if truthy newForward then
    { g with controlsMapping :=
        { g.controlsMapping with forward := toLowerCase (promptText newForward) } } else g
  let g := if truthy newBackward then
    { g with controlsMapping :=
        { g.controlsMapping with backward := toLowerCase (promptText newBackward) } } else g
  let g := if truthy newLeft then
    { g with controlsMapping :=
        { g.controlsMapping with left := toLowerCase (promptText newLeft) } } else g
  let g := if truthy newRight then
    { g with controlsMapping :=
        { g.controlsMapping with right := toLowerCase (promptText newRight) } } else g
  g

/-- Rebinding one action: the click listener of `changeControlsBtn` with the
answer `k` given to the prompt of action `a` and the other three prompts
cancelled. -/
def rebind (toLowerCase : String → String) (g : Game) (a : Action) (k : Option String) : Game :=
  match a with
  | .forward => changeControls toLowerCase g k none none none
  | .backward => changeControls toLowerCase g none k none none
  | .left => changeControls toLowerCase g none none k none
  | .right => changeControls toLowerCase g none none none k

/-! ## Shooting, spawning, collisions -/

/-- The function `shoot`: a bullet is created at the camera position with the
camera's world direction and pushed on `bullets`. -/
def shoot (g : Game) : Game :=
  { g with bullets := g.bullets ++ [⟨g.camera, g.cameraDirection⟩] }

/-- The function `spawnEnemy`, given the two values `r1` and `r2` that its
two calls of `Math.random()` return, in that order: a new mesh is created,
assigned to `enemy`, positioned and added to the scene. -/
def spawnEnemy (g : Game) (r1 r2 : ℚ) : Game :=
  let enemy : Mesh :=
    ⟨g.nextId, ⟨g.camera.x + (r1 - 1 / 2) * 20, 1 / 2, g.camera.z - (10 + r2 * 10)⟩⟩
  { g with enemy := some enemy, sceneEnemies := g.sceneEnemies ++ [enemy],
           nextId := g.nextId + 1 }

/-- The call `scene.remove(enemy)`: the mesh is taken out of the scene;
removing `null` does nothing. -/
def sceneRemove (scene : List Mesh) : Option Mesh → List Mesh
  | none => scene
  | some e => scene.erase e

/-- The `for` loop of `checkCollisions`, about to run its guard with
`i + 1 = n` (so `n = 0` leaves the loop).  The box `enemyBox` was computed
before the loop and is not recomputed. -/
def checkCollisionsLoop (enemyBox : Box3) : Nat → Game → Game
  | 0, g => g
  | i + 1, g =>
    match g.bullets[i]? with
    | none => g
    | some bullet =>
      let bulletBox := Box3.setFromObject bulletHalfExtent bullet.position
      if enemyBox.intersectsBox bulletBox then
        checkCollisionsLoop enemyBox i
          { g with sceneEnemies := sceneRemove g.sceneEnemies g.enemy,
                   enemy := none,
                   bullets := g.bullets.eraseIdx i,
                   pendingRespawns := g.pendingRespawns + 1 }
      else
        checkCollisionsLoop enemyBox i g

/-- The function `checkCollisions`. -/
def checkCollisions (g : Game) : Game :=
  match g.enemy with
  | none => g
  | some enemy =>
    let enemyBox := Box3.setFromObject enemyHalfExtent enemy.position
    checkCollisionsLoop enemyBox g.bullets.length g

/-! ## The frame -/

/-- The constant `playerSpeed`. -/
def playerSpeed : ℚ := 10

/-- The vector `camera.up`, which is three.js's default and never changed. -/
def cameraUp : Vector3 := ⟨0, 1, 0⟩

/-- The vector `forwardVector` of `animate`: the camera direction with its `y`
zeroed, normalised. -/
def forwardVector (sqrt : ℚ → ℚ) (d : Vector3) : Option Vector3 :=
  Vector3.normalize sqrt { d with y := 0 }

/-- The vector `rightVector` of `animate`: `camera.up × forwardVector`,
normalised. -/
def rightVector (sqrt : ℚ → ℚ) (d : Vector3) : Option Vector3 :=
  match forwardVector sqrt d with
  | none => none
  | some fwd => Vector3.normalize sqrt (Vector3.crossVectors cameraUp fwd)

/-- The first block of `animate`: the player moves only while the pointer is
locked.  The result is `none` when one of the two normalisations is not
finite. -/
def locomotion (sqrt : ℚ → ℚ) (delta : ℚ) (g : Game) : Option Game :=
  if g.isLocked = true then
    match forwardVector sqrt g.cameraDirection, rightVector sqrt g.cameraDirection with
    | some fwd, some rgt =>
      let moveDistance := playerSpeed * delta
      let g := if g.movement.forward then
        { g with camera := g.camera.add (fwd.multiplyScalar moveDistance) } else g
      let g := if g.movement.backward then
        { g with camera := g.camera.add (fwd.multiplyScalar (-moveDistance)) } else g
      let g := if g.movement.left then
        { g with camera := g.camera.add (rgt.multiplyScalar moveDistance) } else g
      let g := if g.movement.right then
        { g with camera := g.camera.add (rgt.multiplyScalar (-moveDistance)) } else g
      some g
    | _, _ => none
  else some g

/-- The bullet loop of `animate`, about to run its guard with `i + 1 = n`:
the bullet at index `i` is advanced in place and spliced out when it is
farther than 100 from the camera. -/
def updateBulletsLoop (sqrt : ℚ → ℚ) (delta : ℚ) : Nat → Game → Game
  | 0, g => g
  | i + 1, g =>
    match g.bullets[i]? with
    | none => g
    | some bullet =>
      let moved : Bullet :=
        { bullet with
          position := bullet.position.add (bullet.direction.multiplyScalar (50 * delta)) }
      let g := { g with bullets := g.bullets.set i moved }
      if moved.position.distanceTo sqrt g.camera > 100 then
        updateBulletsLoop sqrt delta i { g with bullets := g.bullets.eraseIdx i }
      else
        updateBulletsLoop sqrt delta i g

/-- The second block of `animate`: the projectile pass. -/
def updateBullets (sqrt : ℚ → ℚ) (delta : ℚ) (g : Game) : Game :=
  updateBulletsLoop sqrt delta g.bullets.length g

/-- One run of `animate` with `clock.getDelta()` returning `delta`:
locomotion, the projectile pass, then `checkCollisions`. -/
def animate (sqrt : ℚ → ℚ) (delta : ℚ) (g : Game) : Option Game :=
  match locomotion sqrt delta g with
  | none => none
  | some moved => some (checkCollisions (updateBullets sqrt delta moved))

/-! ## Events -/

/-- What can happen to the page. -/
inductive Event where
  /-- A click on the start button; `r1`, `r2` are the random draws of the spawn. -/
  | startGame (r1 r2 : ℚ)
  /-- The browser grants or releases the pointer lock. -/
  | pointerLock (locked : Bool)
  /-- A mouse move that turns the camera to a new direction. -/
  | mouseMove (direction : Vector3)
  /-- A press of the left mouse button. -/
  | mouseDown
  /-- A key press. -/
  | keyDown (key : String)
  /-- A key release. -/
  | keyUp (key : String)
  /-- A click on the change-controls button, with the four prompt answers. -/
  | changeControls (newForward newBackward newLeft newRight : Option String)
  /-- An animation frame; `delta` is the time since the previous one. -/
  | frame (delta : ℚ)
  /-- A respawn callback of `setTimeout` fires; `r1`, `r2` are the random draws. -/
  | respawnTimer (r1 r2 : ℚ)

/-- The effect of one event on the globals. -/
def step (sqrt : ℚ → ℚ) (toLowerCase : String → String) (g : Game) : Event → Option Game
  | .startGame r1 r2 => some (spawnEnemy { g with gameStarted := true } r1 r2)
  | .pointerLock locked => some { g with isLocked := locked }
  | .mouseMove direction =>
    some (if g.isLocked then { g with cameraDirection := direction } else g)
  | .mouseDown => some (if g.gameStarted then shoot g else g)
  | .keyDown key => some (keydown toLowerCase g key)
  | .keyUp key => some (keyup toLowerCase g key)
  | .changeControls nf nb nl nr => some (changeControls toLowerCase g nf nb nl nr)
  | .frame delta => animate sqrt delta g
  | .respawnTimer r1 r2 =>
    some (if 0 < g.pendingRespawns then
      spawnEnemy { g with pendingRespawns := g.pendingRespawns - 1 } r1 r2
    else g)

/-- The globals after a sequence of events. -/
def run (sqrt : ℚ → ℚ) (toLowerCase : String → String) (g : Game) : List Event → Option Game
  | [] => some g
  | ev :: events =>
    match step sqrt toLowerCase g ev with
    | none => none
    | some next => run sqrt toLowerCase next events

/-- The globals inside the frame with elapsed time `delta` that follows a
sequence of events, right before its call of `checkCollisions`. -/
def beforeCollisions (sqrt : ℚ → ℚ) (toLowerCase : String → String) (events : List Event)
    (delta : ℚ) : Option Game :=
  match run sqrt toLowerCase Game.initial events with
  | none => none
  | some g =>
    match locomotion sqrt delta g with
    | none => none
    | some moved => some (updateBullets sqrt delta moved)

/-! ## Vocabulary of the statements -/

/-- The test of `checkCollisions` for one bullet: the bullet's box intersects
`enemyBox`. -/
def hits (enemyBox : Box3) (bullet : Bullet) : Bool :=
  enemyBox.intersectsBox (Box3.setFromObject bulletHalfExtent bullet.position)

/-- The bounding box of the enemy mesh `e`. -/
def enemyBoxOf (e : Mesh) : Box3 :=
  Box3.setFromObject enemyHalfExtent e.position

/-- A bullet moved along its direction by `50 * delta`; the direction is kept. -/
def advance (delta : ℚ) (bullet : Bullet) : Bullet :=
  { position := bullet.position.add (bullet.direction.multiplyScalar (50 * delta)),
    direction := bullet.direction }

/-- The bullet is at distance at most 100 from `camera`. -/
def inRange (sqrt : ℚ → ℚ) (camera : Vector3) (bullet : Bullet) : Bool :=
  decide (bullet.position.distanceTo sqrt camera ≤ 100)

/-- The heights that the simulation maintains: the player is at eye height 2,
a live target is at height 0.5, and a bullet with a horizontal direction is
at height 2. -/
def HeightsKept (g : Game) : Prop :=
  g.camera.y = 2 ∧ (∀ e : Mesh, g.enemy = some e → e.position.y = 1 / 2) ∧
    ∀ b ∈ g.bullets, b.direction.y = 0 → b.position.y = 2

/-- Every bound key is case-folded: it equals its own lower-casing. -/
def CaseFolded (toLowerCase : String → String) (g : Game) : Prop :=
  ∀ a : Action, toLowerCase (g.controlsMapping.get a) = g.controlsMapping.get a

/-- The inputs that the host can deliver with an event: random draws lie in
`[0, 1)`, elapsed times are non-negative, camera directions have length 1. -/
def Event.wellFormed : Event → Bool
  | .startGame r1 r2 => decide (0 ≤ r1 ∧ r1 < 1 ∧ 0 ≤ r2 ∧ r2 < 1)
  | .respawnTimer r1 r2 => decide (0 ≤ r1 ∧ r1 < 1 ∧ 0 ≤ r2 ∧ r2 < 1)
  | .frame delta => decide (0 ≤ delta)
  | .mouseMove d => decide (d.x * d.x + d.y * d.y + d.z * d.z = 1)
  | _ => true

/-! ## Sample host functions

The theorems below hold for every `sqrt` and every `toLowerCase`.  To run the
definitions on concrete inputs the following two stand-ins are used; they
agree with the host functions on the inputs they are applied to (squares of
rationals, ASCII keys). -/

/-- Newton's iteration for the integer square root of `n`, with a step budget. -/
def sqrtIter (n : Nat) : Nat → Nat → Nat
  | 0, guess => guess
  | fuel + 1, guess =>
    let next := (guess + n / guess) / 2
    if next < guess then sqrtIter n fuel next else guess

/-- Integer square root, rounded down. -/
def natSqrt (n : Nat) : Nat := if n ≤ 1 then n else sqrtIter n n (n / 2)

/-- A square root on the rationals that is exact on squares of rationals. -/
def ratSqrt (q : ℚ) : ℚ := (natSqrt q.num.toNat : ℚ) / (natSqrt q.den : ℚ)

/-- Lower-casing of the ASCII letters of a string. -/
def asciiLower (s : String) : String := ⟨s.data.map Char.toLower⟩

/-! ## Concrete states used in the examples -/

/-- The initial state, except that `forward` is bound to the upper-case key
`"W"`. -/
def upperCaseForward : Game :=
  { Game.initial with controlsMapping := ⟨"W", "s", "a", "d"⟩ }

/-- A target alive at `(0, 0.5, -10)` and three live bullets, of which only the
second is inside the target's box. -/
def oneHit : Game :=
  { Game.initial with
    gameStarted := true
    enemy := some ⟨0, ⟨0, 1 / 2, -10⟩⟩
    sceneEnemies := [⟨0, ⟨0, 1 / 2, -10⟩⟩]
    nextId := 1
    bullets :=
      [⟨⟨0, 2, -30⟩, ⟨0, 0, -1⟩⟩,
       ⟨⟨0, 1 / 2, -10⟩, ⟨0, -3 / 5, -4 / 5⟩⟩,
       ⟨⟨5, 2, -3⟩, ⟨1, 0, 0⟩⟩] }

/-- A target alive at `(0, 0.5, -10)` and three live bullets, of which the
first and the last are inside the target's box. -/
def twoHits : Game :=
  { Game.initial with
    gameStarted := true
    enemy := some ⟨0, ⟨0, 1 / 2, -10⟩⟩
    sceneEnemies := [⟨0, ⟨0, 1 / 2, -10⟩⟩]
    nextId := 1
    bullets :=
      [⟨⟨0, 1 / 2, -10⟩, ⟨0, -3 / 5, -4 / 5⟩⟩,
       ⟨⟨5, 2, -3⟩, ⟨1, 0, 0⟩⟩,
       ⟨⟨0, 4 / 5, -48 / 5⟩, ⟨0, -3 / 5, -4 / 5⟩⟩] }

/-- A session in which two bullets reach the target in the same frame: the
game starts with the target at `(0, 0.5, -10)`, the player looks down at it,
fires twice, a frame of about a fifth of a second carries both bullets into
the target, and the two respawn callbacks fire. -/
def doubleKill : List Event :=
  [.startGame (1 / 2) 0, .pointerLock true, .mouseMove ⟨0, -28 / 197, -195 / 197⟩,
   .mouseDown, .mouseDown, .frame (197 / 975),
   .respawnTimer (1 / 4) (1 / 2), .respawnTimer (3 / 4) (1 / 4)]

/-- The events before a frame in which a bullet grazes the target sideways:
the target spawns at `x = 0.600000001` (draw `0.53000000005`), the player looks
down along `(0, -28/197, -195/197)` and fires once. -/
def grazingAim : List Event :=
  [.startGame (10600000001 / 20000000000) 0, .pointerLock true,
   .mouseMove ⟨0, -28 / 197, -195 / 197⟩, .mouseDown]

/-- The events before a frame in which a bullet skims the top of the target:
the target spawns at `(0, 0.5, -11)`, the player looks down along
`(0, -25/313, -312/313)` and fires once. -/
def skimmingAim : List Event :=
  [.startGame (1 / 2) (1 / 10), .pointerLock true,
   .mouseMove ⟨0, -25 / 313, -312 / 313⟩, .mouseDown]

/-- The globals inside the frame of `197/975` seconds that follows
`grazingAim`, right before `checkCollisions`: the bullet is at `x = 0`, the
target at `x = 0.600000001`, both at `z = -10`. -/
def grazing : Game :=
  { Game.initial with
    cameraDirection := ⟨0, -28 / 197, -195 / 197⟩
    isLocked := true
    gameStarted := true
    bullets := [⟨⟨0, 22 / 39, -10⟩, ⟨0, -28 / 197, -195 / 197⟩⟩]
    enemy := some ⟨0, ⟨600000001 / 1000000000, 1 / 2, -10⟩⟩
    sceneEnemies := [⟨0, ⟨600000001 / 1000000000, 1 / 2, -10⟩⟩]
    nextId := 1 }

/-- The globals inside the frame of `281699999687 / 1250000000000` seconds
(about `0.225`) that follows `skimmingAim`, right before `checkCollisions`:
the bullet is at height `1.100000001`, the target at height `0.5`. -/
def skimming : Game :=
  { Game.initial with
    cameraDirection := ⟨0, -25 / 313, -312 / 313⟩
    isLocked := true
    gameStarted := true
    bullets :=
      [⟨⟨0, 1100000001 / 1000000000, -35099999961 / 3125000000⟩,
        ⟨0, -25 / 313, -312 / 313⟩⟩]
    enemy := some ⟨0, ⟨0, 1 / 2, -11⟩⟩
    sceneEnemies := [⟨0, ⟨0, 1 / 2, -11⟩⟩]
    nextId := 1 }

/-- A session in which a bullet fired horizontally flies right above the
target: after a fifth of a second it is at `(0, 2, -10)`, the target at
`(0, 0.5, -10)`. -/
def overhead : List Event :=
  [.startGame (1 / 2) 0, .pointerLock true, .mouseDown, .frame (1 / 5)]

/-- The player faces `-z` with the controls locked and holds `forward` and
`right`. -/
def walkingPlayer : Game :=
  { Game.initial with
    isLocked := true
    gameStarted := true
    movement := ⟨true, false, false, true⟩ }

/-- The state `walkingPlayer`, looking straight down. -/
def lookingDown : Game :=
  { walkingPlayer with cameraDirection := ⟨0, -1, 0⟩ }

/-! ## Key handling -/

theorem truthy_none : truthy none = false := rfl

theorem truthy_some_iff (k : String) : truthy (some k) = true ↔ k ≠ "" := by
  simp [truthy]

theorem rebind_of_not_truthy (toLowerCase : String → String) (g : Game) (a : Action)
    (k : Option String) (hk : truthy k = false) : rebind toLowerCase g a k = g := by
  cases a <;> simp [rebind, changeControls, hk, truthy_none]

theorem rebind_of_truthy (toLowerCase : String → String) (g : Game) (a : Action)
    (k : String) (hk : k ≠ "") :
    rebind toLowerCase g a (some k) =
      match a with
      | .forward => { g with controlsMapping := { g.controlsMapping with forward := toLowerCase k } }
      | .backward => { g with controlsMapping := { g.controlsMapping with backward := toLowerCase k } }
      | .left => { g with controlsMapping := { g.controlsMapping with left := toLowerCase k } }
      | .right => { g with controlsMapping := { g.controlsMapping with right := toLowerCase k } } := by
  have h : truthy (some k) = true := (truthy_some_iff k).2 hk
  cases a <;> simp [rebind, changeControls, h, truthy_none, promptText]

/-- C8 (as amended).  For every game state, action `a`, first answer `k1`
(any prompt result) and second answer `k2` that is a non-empty string:
rebinding `a` to `k1` and then to `k2` gives the same state as rebinding `a`
to `k2` once; rebinding `a` to its current key changes nothing when that key
is its own lower-casing; a cancelled or empty answer changes nothing; a
non-empty answer is stored lower-cased; the bindings of the other actions and
the held flags are never touched. -/
theorem rebind_laws (toLowerCase : String → String) (g : Game) (a : Action)
    (k1 : Option String) (k2 : String) (hk2 : k2 ≠ "") :
    rebind toLowerCase (rebind toLowerCase g a k1) a (some k2) = rebind toLowerCase g a (some k2) ∧
    (toLowerCase (g.controlsMapping.get a) = g.controlsMapping.get a →
      rebind toLowerCase g a (some (g.controlsMapping.get a)) = g) ∧
    rebind toLowerCase g a none = g ∧
    rebind toLowerCase g a (some "") = g ∧
    (rebind toLowerCase g a (some k2)).controlsMapping.get a = toLowerCase k2 ∧
    (∀ (b : Action) (k : Option String), b ≠ a →
      (rebind toLowerCase g a k).controlsMapping.get b = g.controlsMapping.get b) ∧
    (∀ k : Option String, (rebind toLowerCase g a k).movement = g.movement) := by
  refine ⟨?_, ?_, ?_, ?_, ?_, ?_, ?_⟩
  · rw [rebind_of_truthy _ _ _ _ hk2, rebind_of_truthy _ _ _ _ hk2]
    cases hk1 : truthy k1
    · rw [rebind_of_not_truthy _ _ _ _ hk1]
    · cases k1 with
      | none => simp [truthy] at hk1
      | some s =>
        rw [rebind_of_truthy _ _ _ _ ((truthy_some_iff s).1 hk1)]
        cases a <;> rfl
  · intro hfix
    by_cases he : g.controlsMapping.get a = ""
    · rw [he]; exact rebind_of_not_truthy _ _ _ _ (by simp [truthy])
    · rw [rebind_of_truthy _ _ _ _ he, hfix]
      cases a <;> rfl
  · exact rebind_of_not_truthy _ _ _ _ rfl
  · exact rebind_of_not_truthy _ _ _ _ (by simp [truthy])
  · rw [rebind_of_truthy _ _ _ _ hk2]
    cases a <;> rfl
  · intro b k hb
    cases hk : truthy k
    · rw [rebind_of_not_truthy _ _ _ _ hk]
    · cases k with
      | none => simp [truthy] at hk
      | some s =>
        rw [rebind_of_truthy _ _ _ _ ((truthy_some_iff s).1 hk)]
        cases a <;> cases b <;> first | rfl | exact absurd rfl hb
  · intro k
    cases hk : truthy k
    · rw [rebind_of_not_truthy _ _ _ _ hk]
    · cases k with
      | none => simp [truthy] at hk
      | some s =>
        rw [rebind_of_truthy _ _ _ _ ((truthy_some_iff s).1 hk)]
        cases a <;> rfl

/-- Witness of `rebind_laws`: the default bindings, `forward` rebound to `"Q"`
and then to `"E"`. -/
theorem rebind_laws_witness :
    "E" ≠ "" ∧
    asciiLower (Game.initial.controlsMapping.get Action.forward) =
      Game.initial.controlsMapping.get Action.forward ∧
    rebind asciiLower (rebind asciiLower Game.initial Action.forward (some "Q")) Action.forward
      (some "E") = rebind asciiLower Game.initial Action.forward (some "E") ∧
    rebind asciiLower Game.initial Action.forward (some "w") = Game.initial ∧
    (rebind asciiLower Game.initial Action.forward (some "E")).controlsMapping.get Action.forward
      = "e" :=
  have h := rebind_laws asciiLower Game.initial Action.forward (some "Q") "E" (by decide)
  ⟨by decide, by decide, h.1, h.2.1 (by decide), h.2.2.2.2.1.trans (by decide)⟩

/-- C8 (as stated) fails.  With the default bindings, rebinding `forward` to
`"x"` and then giving an empty answer leaves `forward` bound to `"x"`, while
giving the empty answer alone leaves it bound to `"w"`; and in a table whose
`forward` key is `"W"`, rebinding `forward` to that current key changes the
table. -/
theorem rebind_twice_empty_counterexample :
    rebind asciiLower (rebind asciiLower Game.initial Action.forward (some "x")) Action.forward
        (some "") ≠ rebind asciiLower Game.initial Action.forward (some "") ∧
    rebind asciiLower upperCaseForward Action.forward
        (some (upperCaseForward.controlsMapping.get Action.forward)) ≠ upperCaseForward := by
  decide!


theorem keydown_eq (toLowerCase : String → String) (g : Game) (k : String) :
    keydown toLowerCase g k =
      { g with movement :=
          ⟨decide (toLowerCase k = g.controlsMapping.forward) || g.movement.forward,
           decide (toLowerCase k = g.controlsMapping.backward) || g.movement.backward,
           decide (toLowerCase k = g.controlsMapping.left) || g.movement.left,
           decide (toLowerCase k = g.controlsMapping.right) || g.movement.right⟩ } := by
  obtain ⟨cam, dir, lk, gs, ⟨kf, kb, kl, kr⟩, ⟨mf, mb, ml, mr⟩, bs, en, sc, pr, ni⟩ := g
  unfold keydown
  generalize toLowerCase k = key
  rcases eq_or_ne key kf with rfl | h1 <;> rcases eq_or_ne key kb with rfl | h2 <;>
    rcases eq_or_ne key kl with rfl | h3 <;> rcases eq_or_ne key kr with rfl | h4 <;>
    simp [*]

theorem keyup_eq (toLowerCase : String → String) (g : Game) (k : String) :
    keyup toLowerCase g k =
      { g with movement :=
          ⟨!decide (toLowerCase k = g.controlsMapping.forward) && g.movement.forward,
           !decide (toLowerCase k = g.controlsMapping.backward) && g.movement.backward,
           !decide (toLowerCase k = g.controlsMapping.left) && g.movement.left,
           !decide (toLowerCase k = g.controlsMapping.right) && g.movement.right⟩ } := by
  obtain ⟨cam, dir, lk, gs, ⟨kf, kb, kl, kr⟩, ⟨mf, mb, ml, mr⟩, bs, en, sc, pr, ni⟩ := g
  unfold keyup
  generalize toLowerCase k = key
  rcases eq_or_ne key kf with rfl | h1 <;> rcases eq_or_ne key kb with rfl | h2 <;>
    rcases eq_or_ne key kl with rfl | h3 <;> rcases eq_or_ne key kr with rfl | h4 <;>
    simp [*]

/-- C9.  For every binding table, held flags and key `k`: after `keydown` an
action's held flag is true when its bound key equals the lower-cased `k` and is
unchanged otherwise; after `keyup` it is false when its bound key equals the
lower-cased `k` and is unchanged otherwise; neither handler changes anything
but the held flags (in particular not the binding table).  After a rebind of
`a` to a non-empty key `K`, `keydown` of any key whose lower-casing equals that
of `K` sets the held flag of `a`. -/
theorem keydown_keyup_flags (toLowerCase : String → String) (g : Game) (k : String)
    (a : Action) :
    (keydown toLowerCase g k).movement.get a =
      (if toLowerCase k = g.controlsMapping.get a then true else g.movement.get a) ∧
    (keyup toLowerCase g k).movement.get a =
      (if toLowerCase k = g.controlsMapping.get a then false else g.movement.get a) ∧
    keydown toLowerCase g k = { g with movement := (keydown toLowerCase g k).movement } ∧
    keyup toLowerCase g k = { g with movement := (keyup toLowerCase g k).movement } ∧
    (∀ K K2 : String, K ≠ "" → toLowerCase K2 = toLowerCase K →
      (keydown toLowerCase (rebind toLowerCase g a (some K)) K2).movement.get a = true) := by
  refine ⟨?_, ?_, ?_, ?_, ?_⟩
  · rw [keydown_eq]
    by_cases h : toLowerCase k = g.controlsMapping.get a <;> cases a <;>
      simp_all [Movement.get, ControlsMapping.get]
  · rw [keyup_eq]
    by_cases h : toLowerCase k = g.controlsMapping.get a <;> cases a <;>
      simp_all [Movement.get, ControlsMapping.get]
  · rw [keydown_eq]
  · rw [keyup_eq]
  · intro K K2 hK hvar
    rw [keydown_eq, hvar, rebind_of_truthy _ _ _ _ hK]
    cases a <;> simp [Movement.get]

/-- Witness of `keydown_keyup_flags`: with the default bindings, `forward` is
rebound to `"E"`; pressing `"e"` then holds `forward`. -/
theorem keydown_keyup_flags_witness :
    "E" ≠ "" ∧ asciiLower "e" = asciiLower "E" ∧
    (keydown asciiLower (rebind asciiLower Game.initial Action.forward (some "E")) "e").movement.get
      Action.forward = true :=
  ⟨by decide, by decide,
    (keydown_keyup_flags asciiLower Game.initial "e" Action.forward).2.2.2.2 "E" "e"
      (by decide) (by decide)⟩

/-! ## Spawning -/

/-- C5.  For every player position and random draws `r1`, `r2` in `[0, 1)`,
`spawnEnemy` makes a target alive at `x = px + (r1 - 0.5) * 20`, `y = 0.5`,
`z = pz - (10 + 10 * r2)`, so `px - 10 ≤ x ≤ px + 10` and
`pz - 20 ≤ z ≤ pz - 10`, whatever the player's height is. -/
theorem spawnEnemy_position (g : Game) (r1 r2 : ℚ)
    (h1 : 0 ≤ r1) (h1u : r1 < 1) (h2 : 0 ≤ r2) (h2u : r2 < 1) :
    ∃ e : Mesh, (spawnEnemy g r1 r2).enemy = some e ∧
      e.position.x = g.camera.x + (r1 - 1 / 2) * 20 ∧
      e.position.y = 1 / 2 ∧
      e.position.z = g.camera.z - (10 + 10 * r2) ∧
      g.camera.x - 10 ≤ e.position.x ∧ e.position.x ≤ g.camera.x + 10 ∧
      g.camera.z - 20 ≤ e.position.z ∧ e.position.z ≤ g.camera.z - 10 := by
  refine ⟨_, rfl, rfl, rfl, ?_, ?_, ?_, ?_, ?_⟩
  · show g.camera.z - (10 + r2 * 10) = g.camera.z - (10 + 10 * r2)
    ring
  · show g.camera.x - 10 ≤ g.camera.x + (r1 - 1 / 2) * 20
    linarith
  · show g.camera.x + (r1 - 1 / 2) * 20 ≤ g.camera.x + 10
    linarith
  · show g.camera.z - 20 ≤ g.camera.z - (10 + r2 * 10)
    linarith
  · show g.camera.z - (10 + r2 * 10) ≤ g.camera.z - 10
    linarith

/-- Witness of `spawnEnemy_position`: the initial player position and the
draws `1/4` and `3/4`. -/
theorem spawnEnemy_position_witness :
    (0 : ℚ) ≤ 1 / 4 ∧ (1 / 4 : ℚ) < 1 ∧ (0 : ℚ) ≤ 3 / 4 ∧ (3 / 4 : ℚ) < 1 ∧
    ∃ e : Mesh, (spawnEnemy Game.initial (1 / 4) (3 / 4)).enemy = some e ∧
      e.position.x = Game.initial.camera.x + (1 / 4 - 1 / 2) * 20 ∧
      e.position.y = 1 / 2 ∧
      e.position.z = Game.initial.camera.z - (10 + 10 * (3 / 4)) ∧
      Game.initial.camera.x - 10 ≤ e.position.x ∧ e.position.x ≤ Game.initial.camera.x + 10 ∧
      Game.initial.camera.z - 20 ≤ e.position.z ∧ e.position.z ≤ Game.initial.camera.z - 10 :=
  ⟨by norm_num, by norm_num, by norm_num, by norm_num,
    spawnEnemy_position Game.initial (1 / 4) (3 / 4) (by norm_num) (by norm_num) (by norm_num)
      (by norm_num)⟩


/-! ## Locomotion -/

theorem Vector3.add_zero_vector (a : Vector3) : a.add ⟨0, 0, 0⟩ = a := by
  cases a; simp [Vector3.add]

theorem Vector3.normalizeDivisor_ne_zero (sqrt : ℚ → ℚ) (a : Vector3) :
    a.normalizeDivisor sqrt ≠ 0 := by
  unfold Vector3.normalizeDivisor
  split
  · exact one_ne_zero
  · assumption

/-- The guard `|| 1` makes `normalize` finite on every vector. -/
theorem Vector3.normalize_eq (sqrt : ℚ → ℚ) (a : Vector3) :
    a.normalize sqrt = some (a.multiplyScalar (1 / a.normalizeDivisor sqrt)) := by
  simp [Vector3.normalize, Vector3.divideScalar, Vector3.normalizeDivisor_ne_zero]

theorem forwardVector_some (sqrt : ℚ → ℚ) (d : Vector3) :
    ∃ f : Vector3, forwardVector sqrt d = some f ∧ f.y = 0 := by
  refine ⟨_, Vector3.normalize_eq sqrt _, ?_⟩
  simp [Vector3.multiplyScalar]

theorem rightVector_some (sqrt : ℚ → ℚ) (d : Vector3) :
    ∃ r : Vector3, rightVector sqrt d = some r ∧ r.y = 0 := by
  obtain ⟨f, hf, -⟩ := forwardVector_some sqrt d
  refine ⟨(Vector3.crossVectors cameraUp f).multiplyScalar
    (1 / Vector3.normalizeDivisor sqrt (Vector3.crossVectors cameraUp f)), ?_, ?_⟩
  · simp only [rightVector, hf]
    exact Vector3.normalize_eq sqrt _
  · simp [Vector3.multiplyScalar, Vector3.crossVectors, cameraUp]

/-- C6.  For every elapsed time `delta`, facing direction and held flags: the
two normalisations are finite, giving `F`, the facing direction with `y`
zeroed, normalised, and `R = normalize(up × F)` with `up = (0, 1, 0)`; while
the controls are locked, the locomotion block changes nothing but the player
position, which moves by
`((forward?1:0) - (backward?1:0)) * 10 * delta * F + ((left?1:0) - (right?1:0)) * 10 * delta * R`;
while the controls are not locked the state is unchanged whatever the held
flags are. -/
theorem locomotion_displacement (sqrt : ℚ → ℚ) (delta : ℚ) (g : Game) :
    ∃ F R : Vector3,
      Vector3.normalize sqrt ⟨g.cameraDirection.x, 0, g.cameraDirection.z⟩ = some F ∧
      Vector3.normalize sqrt (Vector3.crossVectors ⟨0, 1, 0⟩ F) = some R ∧
      (g.isLocked = true →
        locomotion sqrt delta g =
          some { g with
            camera := g.camera.add
              ((F.multiplyScalar
                  (((if g.movement.forward then 1 else 0) -
                    (if g.movement.backward then 1 else 0)) * 10 * delta)).add
                (R.multiplyScalar
                  (((if g.movement.left then 1 else 0) -
                    (if g.movement.right then 1 else 0)) * 10 * delta))) }) ∧
      (g.isLocked = false → locomotion sqrt delta g = some g) := by
  have hF := Vector3.normalize_eq sqrt ⟨g.cameraDirection.x, 0, g.cameraDirection.z⟩
  generalize (Vector3.mk g.cameraDirection.x 0 g.cameraDirection.z).multiplyScalar
    (1 / Vector3.normalizeDivisor sqrt ⟨g.cameraDirection.x, 0, g.cameraDirection.z⟩) = F at hF
  have hR := Vector3.normalize_eq sqrt (Vector3.crossVectors ⟨0, 1, 0⟩ F)
  generalize (Vector3.crossVectors ⟨0, 1, 0⟩ F).multiplyScalar
    (1 / Vector3.normalizeDivisor sqrt (Vector3.crossVectors ⟨0, 1, 0⟩ F)) = R at hR
  refine ⟨F, R, hF, hR, ?_, ?_⟩
  · intro hl
    have hF2 : forwardVector sqrt g.cameraDirection = some F := hF
    have hR2 : rightVector sqrt g.cameraDirection = some R := by
      simp only [rightVector, hF2]
      exact hR
    obtain ⟨cam, dir, lk, gs, km, ⟨mf, mb, ml, mr⟩, bs, en, sc, pr, ni⟩ := g
    simp only at hl
    subst hl
    simp only [locomotion, if_true, hF2, hR2]
    cases mf <;> cases mb <;> cases ml <;> cases mr <;>
      simp [Vector3.add, Vector3.multiplyScalar, playerSpeed] <;>
      (try constructor) <;> (try constructor) <;> ring
  · intro hl
    simp [locomotion, hl]

/-- Witness of `locomotion_displacement`: the player at the origin height 2
faces `-z`, holds `forward` and `right` with the controls locked for a tenth
of a second, and ends at `(1, 2, -1)`; with the controls not locked the state
stays. -/
theorem locomotion_displacement_witness :
    walkingPlayer.isLocked = true ∧
    locomotion ratSqrt (1 / 10) walkingPlayer =
      some { walkingPlayer with camera := ⟨1, 2, -1⟩ } ∧
    ({ walkingPlayer with isLocked := false } : Game).isLocked = false ∧
    locomotion ratSqrt (1 / 10) { walkingPlayer with isLocked := false } =
      some { walkingPlayer with isLocked := false } := by
  obtain ⟨F, R, hF, hR, hl, -⟩ := locomotion_displacement ratSqrt (1 / 10) walkingPlayer
  obtain ⟨-, -, -, -, -, hu⟩ :=
    locomotion_displacement ratSqrt (1 / 10) { walkingPlayer with isLocked := false }
  have hF2 : F = ⟨0, 0, -1⟩ := Option.some.inj (hF.symm.trans (by decide!))
  subst hF2
  have hR2 : R = ⟨-1, 0, 0⟩ := Option.some.inj (hR.symm.trans (by decide!))
  subst hR2
  exact ⟨rfl, (hl rfl).trans (by decide!), rfl, hu rfl⟩

/-- C7.  When the facing direction has `x = 0` and `z = 0` (and `Math.sqrt(0)`
is `0`), for every elapsed time and held flags: both normalisations of the
locomotion block are finite (`some`: the guard `|| 1` keeps the divisor off
zero), the forward and right vectors are both the zero vector, and the block
returns the state, hence the player position, unchanged and finite. -/
theorem locomotion_degenerate (sqrt : ℚ → ℚ) (hsqrt : sqrt 0 = 0) (delta : ℚ) (g : Game)
    (hx : g.cameraDirection.x = 0) (hz : g.cameraDirection.z = 0) :
    forwardVector sqrt g.cameraDirection = some ⟨0, 0, 0⟩ ∧
    rightVector sqrt g.cameraDirection = some ⟨0, 0, 0⟩ ∧
    locomotion sqrt delta g = some g := by
  have hF : forwardVector sqrt g.cameraDirection = some ⟨0, 0, 0⟩ := by
    simp [forwardVector, Vector3.normalize, Vector3.divideScalar, Vector3.normalizeDivisor,
      Vector3.length, Vector3.multiplyScalar, hx, hz, hsqrt]
  have hR : rightVector sqrt g.cameraDirection = some ⟨0, 0, 0⟩ := by
    simp [rightVector, hF, Vector3.normalize, Vector3.divideScalar, Vector3.normalizeDivisor,
      Vector3.length, Vector3.multiplyScalar, Vector3.crossVectors, cameraUp, hsqrt]
  refine ⟨hF, hR, ?_⟩
  obtain ⟨cam, dir, lk, gs, km, ⟨mf, mb, ml, mr⟩, bs, en, sc, pr, ni⟩ := g
  simp only [locomotion, hF, hR]
  cases lk <;> cases mf <;> cases mb <;> cases ml <;> cases mr <;>
    simp [Vector3.multiplyScalar, Vector3.add_zero_vector]

/-- Witness of `locomotion_degenerate`: the player looks straight down while
holding `forward` and `right` with the controls locked. -/
theorem locomotion_degenerate_witness :
    ratSqrt 0 = 0 ∧ lookingDown.cameraDirection.x = 0 ∧ lookingDown.cameraDirection.z = 0 ∧
    forwardVector ratSqrt lookingDown.cameraDirection = some ⟨0, 0, 0⟩ ∧
    rightVector ratSqrt lookingDown.cameraDirection = some ⟨0, 0, 0⟩ ∧
    locomotion ratSqrt (1 / 10) lookingDown = some lookingDown :=
  have h := locomotion_degenerate ratSqrt (by decide!) (1 / 10) lookingDown rfl rfl
  ⟨by decide!, rfl, rfl, h.1, h.2.1, h.2.2⟩

/-! ## Lists indexed at the end of a prefix -/

theorem getElem?_append_cons_length {α : Type} (init : List α) (b : α) (rest : List α) :
    (init ++ b :: rest)[init.length]? = some b := by
  induction init with
  | nil => simp
  | cons a init ih => simpa using ih

theorem eraseIdx_append_cons_length {α : Type} (init : List α) (b : α) (rest : List α) :
    (init ++ b :: rest).eraseIdx init.length = init ++ rest := by
  induction init with
  | nil => rfl
  | cons a init ih => simpa using ih

theorem set_append_cons_length {α : Type} (init : List α) (b c : α) (rest : List α) :
    (init ++ b :: rest).set init.length c = init ++ c :: rest := by
  induction init with
  | nil => rfl
  | cons a init ih => simp

/-! ## The collision loop -/

/-- What the loop of `checkCollisions` does to a prefix `pre` of the bullets
(processed from its end backward): every hitting bullet of `pre` is spliced
out and schedules one respawn; the first hit removes the enemy. -/
theorem checkCollisionsLoop_prefix (enemyBox : Box3) (pre : List Bullet) :
    ∀ (rest : List Bullet) (g : Game), g.bullets = pre ++ rest →
      checkCollisionsLoop enemyBox pre.length g =
        { g with
          bullets := pre.filter (fun b => !hits enemyBox b) ++ rest
          pendingRespawns := g.pendingRespawns + pre.countP (hits enemyBox)
          enemy := if pre.any (hits enemyBox) then none else g.enemy
          sceneEnemies :=
            if pre.any (hits enemyBox) then sceneRemove g.sceneEnemies g.enemy
            else g.sceneEnemies } := by
  induction pre using List.reverseRecOn with
  | nil =>
    intro rest g hg
    cases g
    simp_all [checkCollisionsLoop]
  | append_singleton init b ih =>
    intro rest g hg
    have hg2 : g.bullets = init ++ b :: rest := by simpa using hg
    have hlen : (init ++ [b]).length = init.length + 1 := by simp
    rw [hlen, checkCollisionsLoop, hg2, getElem?_append_cons_length]
    by_cases hb : hits enemyBox b = true
    · have hb2 : enemyBox.intersectsBox (Box3.setFromObject bulletHalfExtent b.position) = true := hb
      simp only [hb2, if_true]
      rw [eraseIdx_append_cons_length, ih rest _ rfl]
      cases g
      simp [hb, sceneRemove, List.countP_append, Nat.add_assoc, Nat.add_comm]
    · have hb2 : ¬ enemyBox.intersectsBox (Box3.setFromObject bulletHalfExtent b.position) = true := hb
      simp only [hb2, if_false]
      rw [ih (b :: rest) g hg2]
      cases g
      simp [hb, List.countP_append]


/-- What `checkCollisions` does while an enemy is alive: every hitting bullet
is removed and schedules one respawn; the enemy is removed if one hits. -/
theorem checkCollisions_alive (g : Game) (t : Mesh) (ht : g.enemy = some t) :
    checkCollisions g =
      { g with
        bullets := g.bullets.filter (fun b => !hits (enemyBoxOf t) b)
        pendingRespawns := g.pendingRespawns + g.bullets.countP (hits (enemyBoxOf t))
        enemy := if g.bullets.any (hits (enemyBoxOf t)) then none else some t
        sceneEnemies :=
          if g.bullets.any (hits (enemyBoxOf t)) then g.sceneEnemies.erase t
          else g.sceneEnemies } := by
  have h := checkCollisionsLoop_prefix (enemyBoxOf t) g.bullets [] g (by simp)
  unfold checkCollisions
  rw [ht]
  simp only [enemyBoxOf] at h ⊢
  rw [h]
  simp [ht, sceneRemove]

/-- The box test of `checkCollisions` is the closed overlap of the enemy cube
(half extent 0.5) and the bullet box (half extent `13421773 / 2^27`): each
coordinate differs by at most their sum. -/
theorem hits_iff (t : Mesh) (b : Bullet) :
    hits (enemyBoxOf t) b = true ↔
      |b.position.x - t.position.x| ≤ 1 / 2 + 13421773 / 134217728 ∧ |b.position.y - t.position.y| ≤ 1 / 2 + 13421773 / 134217728 ∧
        |b.position.z - t.position.z| ≤ 1 / 2 + 13421773 / 134217728 := by
  simp only [hits, enemyBoxOf, Box3.intersectsBox, Box3.setFromObject, enemyHalfExtent,
    bulletHalfExtent, abs_le]
  constructor
  · intro h
    split at h
    · cases h
    · rename_i hno
      push_neg at hno
      obtain ⟨h1, h2, h3, h4, h5, h6⟩ := hno
      refine ⟨⟨?_, ?_⟩, ⟨?_, ?_⟩, ⟨?_, ?_⟩⟩ <;> linarith
  · rintro ⟨⟨h1, h2⟩, ⟨h3, h4⟩, ⟨h5, h6⟩⟩
    rw [if_neg]
    push_neg
    refine ⟨?_, ?_, ?_, ?_, ?_, ?_⟩ <;> linarith

/-- C2 (as amended).  While the target is alive at `t`, `checkCollisions`
destroys it (the variable becomes absent and a respawn is scheduled) if and
only if some live bullet overlaps it, that is, each coordinate of the bullet
differs from the target's by at most `0.5 + 13421773 / 2^27` (the cube's half
extent plus the half extent of the bullet's box, about `0.6000000015`);
without such a bullet nothing changes; and when exactly one bullet overlaps,
exactly that bullet is removed, exactly one respawn is scheduled, the target
leaves the scene, and the other bullets stay in their order. -/
theorem checkCollisions_overlap (g : Game) (t : Mesh) (ht : g.enemy = some t) :
    let overlaps : Bullet → Prop := fun b =>
      |b.position.x - t.position.x| ≤ 1 / 2 + 13421773 / 134217728 ∧ |b.position.y - t.position.y| ≤ 1 / 2 + 13421773 / 134217728 ∧
        |b.position.z - t.position.z| ≤ 1 / 2 + 13421773 / 134217728
    (((checkCollisions g).enemy = none ∧
        g.pendingRespawns < (checkCollisions g).pendingRespawns) ↔
      ∃ b ∈ g.bullets, overlaps b) ∧
    ((¬ ∃ b ∈ g.bullets, overlaps b) → checkCollisions g = g) ∧
    (∀ (l1 : List Bullet) (b : Bullet) (l2 : List Bullet), g.bullets = l1 ++ b :: l2 →
      overlaps b → (∀ c ∈ l1 ++ l2, ¬ overlaps c) →
      checkCollisions g =
        { g with
          bullets := l1 ++ l2
          pendingRespawns := g.pendingRespawns + 1
          enemy := none
          sceneEnemies := g.sceneEnemies.erase t }) := by
  intro overlaps
  have hov : ∀ b, hits (enemyBoxOf t) b = true ↔ overlaps b := hits_iff t
  have hany : g.bullets.any (hits (enemyBoxOf t)) = true ↔ ∃ b ∈ g.bullets, overlaps b := by
    simp [List.any_eq_true, hov]
  rw [checkCollisions_alive g t ht]
  refine ⟨?_, ?_, ?_⟩
  · constructor
    · rintro ⟨h1, -⟩
      by_contra hno
      have hf : g.bullets.any (hits (enemyBoxOf t)) = false := by
        simpa using mt hany.1 hno
      simp [hf] at h1
    · intro h
      have ht2 := hany.2 h
      refine ⟨by simp [ht2], ?_⟩
      have hpos : 0 < g.bullets.countP (hits (enemyBoxOf t)) := by
        rw [List.countP_pos_iff]
        obtain ⟨b, hb, hb2⟩ := List.any_eq_true.1 ht2
        exact ⟨b, hb, hb2⟩
      simp only
      omega
  · intro hno
    have hf : g.bullets.any (hits (enemyBoxOf t)) = false := by
      simpa using mt hany.1 hno
    have hall : ∀ b ∈ g.bullets, hits (enemyBoxOf t) b = false := by
      intro b hb
      cases hh : hits (enemyBoxOf t) b
      · rfl
      · exact absurd ⟨b, hb, (hov b).1 hh⟩ hno
    have hfil : g.bullets.filter (fun b => !hits (enemyBoxOf t) b) = g.bullets := by
      rw [List.filter_eq_self]
      intro b hb
      simp [hall b hb]
    have hcnt : g.bullets.countP (hits (enemyBoxOf t)) = 0 := by
      rw [List.countP_eq_zero]
      intro b hb
      simp [hall b hb]
    cases g
    simp_all
  · intro l1 b l2 hbs hb hothers
    have hbh : hits (enemyBoxOf t) b = true := (hov b).2 hb
    have hl : ∀ c ∈ l1 ++ l2, hits (enemyBoxOf t) c = false := by
      intro c hc
      cases hh : hits (enemyBoxOf t) c
      · rfl
      · exact absurd ((hov c).1 hh) (hothers c hc)
    have hl1 : ∀ c ∈ l1, hits (enemyBoxOf t) c = false :=
      fun c hc => hl c (List.mem_append_left _ hc)
    have hl2 : ∀ c ∈ l2, hits (enemyBoxOf t) c = false :=
      fun c hc => hl c (List.mem_append_right _ hc)
    have hf1 : l1.filter (fun b => !hits (enemyBoxOf t) b) = l1 := by
      rw [List.filter_eq_self]; intro c hc; simp [hl1 c hc]
    have hf2 : l2.filter (fun b => !hits (enemyBoxOf t) b) = l2 := by
      rw [List.filter_eq_self]; intro c hc; simp [hl2 c hc]
    have hc1 : l1.countP (hits (enemyBoxOf t)) = 0 := by
      rw [List.countP_eq_zero]; intro c hc; simp [hl1 c hc]
    have hc2 : l2.countP (hits (enemyBoxOf t)) = 0 := by
      rw [List.countP_eq_zero]; intro c hc; simp [hl2 c hc]
    rw [hbs]
    simp [List.filter_append, List.filter_cons, List.countP_append, List.countP_cons, hbh, hf1,
      hf2, hc1, hc2]


/-- Witness of `checkCollisions_overlap`: in `oneHit` only the second bullet
overlaps the target; it is removed, one respawn is scheduled, and the other
two bullets stay. -/
theorem checkCollisions_overlap_witness :
    oneHit.enemy = some ⟨0, ⟨0, 1 / 2, -10⟩⟩ ∧
    checkCollisions oneHit =
      { oneHit with
        bullets := [⟨⟨0, 2, -30⟩, ⟨0, 0, -1⟩⟩, ⟨⟨5, 2, -3⟩, ⟨1, 0, 0⟩⟩]
        pendingRespawns := 1
        enemy := none
        sceneEnemies := [] } :=
  ⟨rfl,
   ((checkCollisions_overlap oneHit ⟨0, ⟨0, 1 / 2, -10⟩⟩ rfl).2.2
      [⟨⟨0, 2, -30⟩, ⟨0, 0, -1⟩⟩] ⟨⟨0, 1 / 2, -10⟩, ⟨0, -3 / 5, -4 / 5⟩⟩
      [⟨⟨5, 2, -3⟩, ⟨1, 0, 0⟩⟩] rfl (by norm_num)
      (by
        intro c hc
        simp only [List.singleton_append, List.mem_cons, List.mem_singleton,
          List.not_mem_nil, or_false] at hc
        rcases hc with rfl | rfl <;> norm_num [abs_le])).trans (by decide!)⟩

/-- C2 (as stated) fails.  The well-formed events `grazingAim` followed by a
frame of `197/975` seconds reach the state `grazing` right before
`checkCollisions`; there the target is alive, `checkCollisions` destroys it and
schedules a respawn, yet no live bullet is within `0.6` of the target on every
axis: the only bullet is `0.600000001` away along `x`. -/
theorem grazing_bullet_kills :
    grazingAim.all Event.wellFormed = true ∧
    Event.wellFormed (.frame (197 / 975)) = true ∧
    beforeCollisions ratSqrt asciiLower grazingAim (197 / 975) = some grazing ∧
    grazing.enemy = some ⟨0, ⟨600000001 / 1000000000, 1 / 2, -10⟩⟩ ∧
    (checkCollisions grazing).enemy = none ∧
    (checkCollisions grazing).pendingRespawns = grazing.pendingRespawns + 1 ∧
    ∀ b ∈ grazing.bullets,
      ¬(|b.position.x - 600000001 / 1000000000| ≤ 3 / 5 ∧ |b.position.y - 1 / 2| ≤ 3 / 5 ∧
        |b.position.z - -10| ≤ 3 / 5) := by
  decide!

/-- C1, evaluated at `twoHits`.  Both the first and the last bullet are inside
the target's box; one run of `checkCollisions` removes both of them and
schedules two respawns (the claim says that only the last one is removed and
one respawn is scheduled). -/
theorem checkCollisions_twoHits :
    hits (enemyBoxOf ⟨0, ⟨0, 1 / 2, -10⟩⟩) ⟨⟨0, 1 / 2, -10⟩, ⟨0, -3 / 5, -4 / 5⟩⟩ = true ∧
    hits (enemyBoxOf ⟨0, ⟨0, 1 / 2, -10⟩⟩) ⟨⟨0, 4 / 5, -48 / 5⟩, ⟨0, -3 / 5, -4 / 5⟩⟩ = true ∧
    checkCollisions twoHits =
      { twoHits with
        bullets := [⟨⟨5, 2, -3⟩, ⟨1, 0, 0⟩⟩]
        pendingRespawns := 2
        enemy := none
        sceneEnemies := [] } := by
  decide!

/-! ## The projectile pass -/

/-- What the bullet loop of `animate` does to a prefix `pre` of the bullets:
each bullet of `pre` is advanced once, and kept exactly when it is then in
range. -/
theorem updateBulletsLoop_prefix (sqrt : ℚ → ℚ) (delta : ℚ) (pre : List Bullet) :
    ∀ (rest : List Bullet) (g : Game), g.bullets = pre ++ rest →
      updateBulletsLoop sqrt delta pre.length g =
        { g with
          bullets := (pre.map (advance delta)).filter (inRange sqrt g.camera) ++ rest } := by
  induction pre using List.reverseRecOn with
  | nil =>
    intro rest g hg
    cases g
    simp_all [updateBulletsLoop]
  | append_singleton init b ih =>
    intro rest g hg
    have hg2 : g.bullets = init ++ b :: rest := by simpa using hg
    have hlen : (init ++ [b]).length = init.length + 1 := by simp
    rw [hlen, updateBulletsLoop, hg2, getElem?_append_cons_length]
    simp only [set_append_cons_length]
    by_cases hb : (advance delta b).position.distanceTo sqrt g.camera > 100
    · have hb2 : (b.position.add (b.direction.multiplyScalar (50 * delta))).distanceTo sqrt
          g.camera > 100 := hb
      simp only [hb2, if_true]
      rw [eraseIdx_append_cons_length, ih rest _ rfl]
      have hr : inRange sqrt g.camera (advance delta b) = false := by
        simp only [inRange, decide_eq_false_iff_not, not_le]
        exact hb
      simp [List.filter_append, hr]
    · have hb2 : ¬ (b.position.add (b.direction.multiplyScalar (50 * delta))).distanceTo sqrt
          g.camera > 100 := hb
      simp only [hb2, if_false]
      rw [ih _ _ rfl]
      have hr : inRange sqrt g.camera (advance delta b) = true := by
        simp only [inRange, decide_eq_true_eq]
        exact not_lt.1 hb
      have hadv : advance delta b =
          { position := b.position.add (b.direction.multiplyScalar (50 * delta)),
            direction := b.direction } := rfl
      simp [List.filter_append, hr, ← hadv]

/-- C3.  For every live list of bullets, player position and elapsed time, the
projectile pass of one frame changes nothing but the list, and leaves exactly
the list obtained by replacing each bullet's position with
`position + direction * (50 * delta)` (direction kept) and then keeping, in
the original order, the bullets whose distance from the player's position is
at most 100. -/
theorem updateBullets_eq (sqrt : ℚ → ℚ) (delta : ℚ) (g : Game) :
    updateBullets sqrt delta g =
      { g with
        bullets :=
          (g.bullets.map fun b =>
            ({ position := b.position.add (b.direction.multiplyScalar (50 * delta)),
               direction := b.direction } : Bullet)).filter
            fun b => decide (b.position.distanceTo sqrt g.camera ≤ 100) } := by
  have h := updateBulletsLoop_prefix sqrt delta g.bullets [] g (by simp)
  unfold updateBullets
  rw [h]
  simp only [List.append_nil]
  rfl


/-! ## Sessions -/

/-- C4, evaluated at the session `doubleKill`, whose events are all well formed.
After the frame in which both bullets are inside the target's box two respawn
callbacks are pending; the first one spawns a target; the second one then runs
`spawnEnemy` while that target is alive, and the scene ends up holding two
targets (the claim says that `spawnEnemy` only runs while the target is
absent and that the scene never holds more than one). -/
theorem doubleKill_two_targets :
    doubleKill.all Event.wellFormed = true ∧
    (run ratSqrt asciiLower Game.initial (doubleKill.take 6)).map
        (fun g => (g.enemy, g.pendingRespawns)) = some (none, 2) ∧
    (run ratSqrt asciiLower Game.initial (doubleKill.take 7)).map
        (fun g => (g.enemy, g.pendingRespawns)) = some (some ⟨1, ⟨-5, 1 / 2, -15⟩⟩, 1) ∧
    (run ratSqrt asciiLower Game.initial doubleKill).map
        (fun g => (g.enemy, g.sceneEnemies)) =
      some (some ⟨2, ⟨5, 1 / 2, -25 / 2⟩⟩,
        [⟨1, ⟨-5, 1 / 2, -15⟩⟩, ⟨2, ⟨5, 1 / 2, -25 / 2⟩⟩]) := by
  decide!

/-! ## Every frame is finite -/

theorem locomotion_fields (sqrt : ℚ → ℚ) (delta : ℚ) (g : Game) :
    ∃ c : Vector3, c.y = g.camera.y ∧ locomotion sqrt delta g = some { g with camera := c } := by
  obtain ⟨f, hf, hfy⟩ := forwardVector_some sqrt g.cameraDirection
  obtain ⟨r, hr, hry⟩ := rightVector_some sqrt g.cameraDirection
  obtain ⟨cam, dir, lk, gs, km, ⟨mf, mb, ml, mr⟩, bs, en, sc, pr, ni⟩ := g
  simp only at hf hr
  simp only [locomotion, hf, hr]
  cases lk <;> cases mf <;> cases mb <;> cases ml <;> cases mr <;>
    simp [Vector3.add, Vector3.multiplyScalar, hfy, hry]

theorem animate_eq (sqrt : ℚ → ℚ) (delta : ℚ) (g : Game) :
    ∃ c : Vector3, c.y = g.camera.y ∧
      locomotion sqrt delta g = some { g with camera := c } ∧
      animate sqrt delta g =
        some (checkCollisions (updateBullets sqrt delta { g with camera := c })) := by
  obtain ⟨c, hc, hl⟩ := locomotion_fields sqrt delta g
  exact ⟨c, hc, hl, by simp only [animate, hl]⟩

theorem step_some (sqrt : ℚ → ℚ) (toLowerCase : String → String) (g : Game) (ev : Event) :
    ∃ next : Game, step sqrt toLowerCase g ev = some next := by
  cases ev with
  | frame delta =>
    obtain ⟨c, -, -, ha⟩ := animate_eq sqrt delta g
    exact ⟨_, ha⟩
  | _ => exact ⟨_, rfl⟩

/-! ## Heights -/

theorem changeControls_fields (toLowerCase : String → String) (g : Game)
    (nf nb nl nr : Option String) :
    changeControls toLowerCase g nf nb nl nr =
      { g with controlsMapping := (changeControls toLowerCase g nf nb nl nr).controlsMapping } := by
  unfold changeControls
  cases truthy nf <;> cases truthy nb <;> cases truthy nl <;> cases truthy nr <;> rfl

theorem updateBullets_closed_form (sqrt : ℚ → ℚ) (delta : ℚ) (g : Game) :
    updateBullets sqrt delta g =
      { g with bullets := (g.bullets.map (advance delta)).filter (inRange sqrt g.camera) } := by
  have h := updateBulletsLoop_prefix sqrt delta g.bullets [] g (by simp)
  unfold updateBullets
  rw [h]
  simp only [List.append_nil]

theorem not_hits_of_height (e : Mesh) (b : Bullet) (he : e.position.y = 1 / 2)
    (hb : b.position.y = 2) : hits (enemyBoxOf e) b = false := by
  cases h : hits (enemyBoxOf e) b
  · rfl
  · have h2 := ((hits_iff e b).1 h).2.1
    rw [he, hb] at h2
    norm_num [abs_le] at h2

theorem heightsKept_initial : HeightsKept Game.initial := by
  refine ⟨rfl, ?_, ?_⟩
  · intro e he; cases he
  · intro b hb; cases hb

theorem heightsKept_spawnEnemy {g : Game} (h : HeightsKept g) (r1 r2 : ℚ) :
    HeightsKept (spawnEnemy g r1 r2) := by
  refine ⟨h.1, ?_, h.2.2⟩
  intro e he
  simp only [spawnEnemy, Option.some.injEq] at he
  rw [← he]

theorem heightsKept_checkCollisions {g : Game} (h : HeightsKept g) :
    HeightsKept (checkCollisions g) := by
  cases ht : g.enemy with
  | none =>
    have : checkCollisions g = g := by simp [checkCollisions, ht]
    rw [this]; exact h
  | some t =>
    rw [checkCollisions_alive g t ht]
    refine ⟨h.1, ?_, ?_⟩
    · intro e he
      simp only at he
      split at he
      · cases he
      · exact h.2.1 e (ht.trans he)
    · intro b hb
      simp only [List.mem_filter] at hb
      exact h.2.2 b hb.1

theorem heightsKept_updateBullets {g : Game} (h : HeightsKept g) (sqrt : ℚ → ℚ) (delta : ℚ)
    (c : Vector3) (hc : c.y = g.camera.y) :
    HeightsKept (updateBullets sqrt delta { g with camera := c }) := by
  rw [updateBullets_closed_form]
  refine ⟨hc.trans h.1, h.2.1, ?_⟩
  intro b hb hd
  simp only [List.mem_filter, List.mem_map] at hb
  obtain ⟨⟨a, ha, rfl⟩, -⟩ := hb
  have hd2 : a.direction.y = 0 := hd
  have := h.2.2 a ha hd2
  simp [advance, Vector3.add, Vector3.multiplyScalar, hd2, this]

theorem heightsKept_step {g : Game} (h : HeightsKept g) (sqrt : ℚ → ℚ)
    (toLowerCase : String → String) (ev : Event) :
    ∃ next : Game, step sqrt toLowerCase g ev = some next ∧ HeightsKept next := by
  cases ev with
  | startGame r1 r2 =>
    exact ⟨_, rfl, heightsKept_spawnEnemy (g := { g with gameStarted := true }) h r1 r2⟩
  | pointerLock locked => exact ⟨_, rfl, h⟩
  | mouseMove direction =>
    refine ⟨_, rfl, ?_⟩
    split
    · exact h
    · exact h
  | mouseDown =>
    refine ⟨_, rfl, ?_⟩
    split
    · refine ⟨h.1, h.2.1, ?_⟩
      intro b hb hd
      simp only [shoot, List.mem_append, List.mem_singleton] at hb
      rcases hb with hb | rfl
      · exact h.2.2 b hb hd
      · exact h.1
    · exact h
  | keyDown key =>
    refine ⟨_, rfl, ?_⟩
    rw [keydown_eq]
    exact h
  | keyUp key =>
    refine ⟨_, rfl, ?_⟩
    rw [keyup_eq]
    exact h
  | changeControls nf nb nl nr =>
    refine ⟨_, rfl, ?_⟩
    rw [changeControls_fields]
    exact h
  | frame delta =>
    obtain ⟨c, hc, -, ha⟩ := animate_eq sqrt delta g
    exact ⟨_, ha, heightsKept_checkCollisions (heightsKept_updateBullets h sqrt delta c hc)⟩
  | respawnTimer r1 r2 =>
    refine ⟨_, rfl, ?_⟩
    split
    · exact heightsKept_spawnEnemy (g := { g with pendingRespawns := g.pendingRespawns - 1 }) h
        r1 r2
    · exact h

theorem heightsKept_run (sqrt : ℚ → ℚ) (toLowerCase : String → String) (events : List Event) :
    ∀ g : Game, HeightsKept g →
      ∃ last : Game, run sqrt toLowerCase g events = some last ∧ HeightsKept last := by
  induction events with
  | nil => intro g h; exact ⟨g, rfl, h⟩
  | cons ev events ih =>
    intro g h
    obtain ⟨next, hs, hn⟩ := heightsKept_step h sqrt toLowerCase ev
    obtain ⟨last, hr, hl⟩ := ih next hn
    exact ⟨last, by simp only [run, hs, hr], hl⟩

/-- C10 (as amended).  Every sequence of events from the initial state ends in
a state (no non-finite number arises) in which: the player is at height 2; a
bullet position can be inside the box of the live target only if its height is
between `-13421773 / 2^27` and `1 + 13421773 / 2^27` (about `-0.1000000015` and
`1.1000000015`); every live bullet with a horizontal direction is at height 2
and outside the box of the live target; and in every further frame, whatever
its elapsed time, each horizontal bullet that survives the projectile pass is
at height 2 and also survives the collision pass. -/
theorem horizontal_bullets_never_hit (sqrt : ℚ → ℚ) (toLowerCase : String → String)
    (events : List Event) :
    ∃ g : Game, run sqrt toLowerCase Game.initial events = some g ∧
      g.camera.y = 2 ∧
      (∀ (e : Mesh) (b : Bullet), g.enemy = some e → hits (enemyBoxOf e) b = true →
        -(13421773 / 134217728) ≤ b.position.y ∧ b.position.y ≤ 1 + 13421773 / 134217728) ∧
      (∀ b ∈ g.bullets, b.direction.y = 0 →
        b.position.y = 2 ∧ ∀ e : Mesh, g.enemy = some e → hits (enemyBoxOf e) b = false) ∧
      (∀ delta : ℚ, ∃ moved : Game, locomotion sqrt delta g = some moved ∧
        animate sqrt delta g = some (checkCollisions (updateBullets sqrt delta moved)) ∧
        ∀ b ∈ (updateBullets sqrt delta moved).bullets, b.direction.y = 0 →
          b.position.y = 2 ∧ b ∈ (checkCollisions (updateBullets sqrt delta moved)).bullets) := by
  obtain ⟨g, hrun, hg⟩ := heightsKept_run sqrt toLowerCase events _ heightsKept_initial
  refine ⟨g, hrun, hg.1, ?_, ?_, ?_⟩
  · intro e b he hb
    have h2 := ((hits_iff e b).1 hb).2.1
    rw [hg.2.1 e he, abs_le] at h2
    constructor <;> linarith [h2.1, h2.2]
  · intro b hb hd
    exact ⟨hg.2.2 b hb hd, fun e he => not_hits_of_height e b (hg.2.1 e he) (hg.2.2 b hb hd)⟩
  · intro delta
    obtain ⟨c, hc, hl, ha⟩ := animate_eq sqrt delta g
    refine ⟨_, hl, ha, ?_⟩
    intro b hb hd
    have h1 : HeightsKept (updateBullets sqrt delta { g with camera := c }) :=
      heightsKept_updateBullets hg sqrt delta c hc
    refine ⟨h1.2.2 b hb hd, ?_⟩
    cases ht : (updateBullets sqrt delta { g with camera := c }).enemy with
    | none =>
      have : checkCollisions (updateBullets sqrt delta { g with camera := c }) =
          updateBullets sqrt delta { g with camera := c } := by
        simp [checkCollisions, ht]
      rw [this]; exact hb
    | some t =>
      rw [checkCollisions_alive _ t ht]
      simp only [List.mem_filter]
      refine ⟨hb, ?_⟩
      rw [not_hits_of_height t b (h1.2.1 t ht) (h1.2.2 b hb hd)]
      rfl

/-- Witness of `horizontal_bullets_never_hit`: the session `overhead` ends in
a state where the bullet fired horizontally is right above the target, at
height 2, and is not inside the target's box. -/
theorem horizontal_bullets_never_hit_witness :
    ∃ g : Game, run ratSqrt asciiLower Game.initial overhead = some g ∧
      (⟨⟨0, 2, -10⟩, ⟨0, 0, -1⟩⟩ : Bullet) ∈ g.bullets ∧
      (⟨⟨0, 2, -10⟩, ⟨0, 0, -1⟩⟩ : Bullet).direction.y = 0 ∧
      g.enemy = some ⟨0, ⟨0, 1 / 2, -10⟩⟩ ∧
      (⟨⟨0, 2, -10⟩, ⟨0, 0, -1⟩⟩ : Bullet).position.y = 2 ∧
      hits (enemyBoxOf ⟨0, ⟨0, 1 / 2, -10⟩⟩) ⟨⟨0, 2, -10⟩, ⟨0, 0, -1⟩⟩ = false := by
  obtain ⟨g, hrun, -, -, h, -⟩ := horizontal_bullets_never_hit ratSqrt asciiLower overhead
  have hg : g = { Game.initial with
      isLocked := true
      gameStarted := true
      bullets := [⟨⟨0, 2, -10⟩, ⟨0, 0, -1⟩⟩]
      enemy := some ⟨0, ⟨0, 1 / 2, -10⟩⟩
      sceneEnemies := [⟨0, ⟨0, 1 / 2, -10⟩⟩]
      nextId := 1 } := Option.some.inj (hrun.symm.trans (by decide!))
  subst hg
  have hb := h ⟨⟨0, 2, -10⟩, ⟨0, 0, -1⟩⟩ (by decide!) rfl
  exact ⟨_, hrun, by decide!, rfl, rfl, hb.1, hb.2 _ rfl⟩

/-- C10 (as stated) fails.  The well-formed events `skimmingAim` followed by a
frame of about `0.225` seconds reach the state `skimming` right before
`checkCollisions`; there the live bullet is inside the box of the live target,
and `checkCollisions` destroys the target, although the bullet's height
`1.100000001` is above `1.1`. -/
theorem skimming_bullet_hits :
    skimmingAim.all Event.wellFormed = true ∧
    Event.wellFormed (.frame (281699999687 / 1250000000000)) = true ∧
    beforeCollisions ratSqrt asciiLower skimmingAim (281699999687 / 1250000000000) =
      some skimming ∧
    skimming.enemy = some ⟨0, ⟨0, 1 / 2, -11⟩⟩ ∧
    skimming.bullets =
      [⟨⟨0, 1100000001 / 1000000000, -35099999961 / 3125000000⟩,
        ⟨0, -25 / 313, -312 / 313⟩⟩] ∧
    hits (enemyBoxOf ⟨0, ⟨0, 1 / 2, -11⟩⟩)
      ⟨⟨0, 1100000001 / 1000000000, -35099999961 / 3125000000⟩,
        ⟨0, -25 / 313, -312 / 313⟩⟩ = true ∧
    ¬((1100000001 / 1000000000 : ℚ) ≤ 11 / 10) ∧
    (checkCollisions skimming).enemy = none := by
  decide!

/-! ## Stored keys are case-folded -/

theorem checkCollisions_controlsMapping (g : Game) :
    (checkCollisions g).controlsMapping = g.controlsMapping := by
  cases ht : g.enemy with
  | none => simp [checkCollisions, ht]
  | some t => rw [checkCollisions_alive g t ht]

theorem caseFolded_changeControls (toLowerCase : String → String)
    (hidem : ∀ s, toLowerCase (toLowerCase s) = toLowerCase s) {g : Game}
    (h : CaseFolded toLowerCase g) (nf nb nl nr : Option String) :
    CaseFolded toLowerCase (changeControls toLowerCase g nf nb nl nr) := by
  have hf := h Action.forward
  have hb := h Action.backward
  have hl := h Action.left
  have hr := h Action.right
  simp only [ControlsMapping.get] at hf hb hl hr
  intro a
  unfold changeControls
  cases truthy nf <;> cases truthy nb <;> cases truthy nl <;> cases truthy nr <;> cases a <;>
    simp [ControlsMapping.get, hidem, hf, hb, hl, hr]

theorem caseFolded_step (sqrt : ℚ → ℚ) (toLowerCase : String → String)
    (hidem : ∀ s, toLowerCase (toLowerCase s) = toLowerCase s) {g : Game}
    (h : CaseFolded toLowerCase g) (ev : Event) :
    ∃ next : Game, step sqrt toLowerCase g ev = some next ∧ CaseFolded toLowerCase next := by
  cases ev with
  | startGame r1 r2 => exact ⟨_, rfl, h⟩
  | pointerLock locked => exact ⟨_, rfl, h⟩
  | mouseMove direction =>
    refine ⟨_, rfl, ?_⟩
    split <;> exact h
  | mouseDown =>
    refine ⟨_, rfl, ?_⟩
    split <;> exact h
  | keyDown key =>
    refine ⟨_, rfl, ?_⟩
    rw [keydown_eq]
    exact h
  | keyUp key =>
    refine ⟨_, rfl, ?_⟩
    rw [keyup_eq]
    exact h
  | changeControls nf nb nl nr =>
    exact ⟨_, rfl, caseFolded_changeControls toLowerCase hidem h nf nb nl nr⟩
  | frame delta =>
    obtain ⟨c, -, -, ha⟩ := animate_eq sqrt delta g
    refine ⟨_, ha, ?_⟩
    intro a
    rw [checkCollisions_controlsMapping, updateBullets_closed_form]
    exact h a
  | respawnTimer r1 r2 =>
    refine ⟨_, rfl, ?_⟩
    split <;> exact h

/-- Every session from the default table ends in a table that holds
case-folded keys, provided lower-casing is idempotent and fixes the four
default keys. -/
theorem caseFolded_run (sqrt : ℚ → ℚ) (toLowerCase : String → String)
    (hidem : ∀ s, toLowerCase (toLowerCase s) = toLowerCase s)
    (hdefault : CaseFolded toLowerCase Game.initial) (events : List Event) :
    ∃ g : Game, run sqrt toLowerCase Game.initial events = some g ∧
      CaseFolded toLowerCase g := by
  have key : ∀ (events : List Event) (g : Game), CaseFolded toLowerCase g →
      ∃ last : Game, run sqrt toLowerCase g events = some last ∧
        CaseFolded toLowerCase last := by
    intro events
    induction events with
    | nil => intro g h; exact ⟨g, rfl, h⟩
    | cons ev events ih =>
      intro g h
      obtain ⟨next, hs, hn⟩ := caseFolded_step sqrt toLowerCase hidem h ev
      obtain ⟨last, hr, hl⟩ := ih next hn
      exact ⟨last, by simp only [run, hs, hr], hl⟩
  exact key events _ hdefault

/-- The spawn position does not depend on where the camera faces: the target
is placed toward world `-z` of the player, whatever the camera direction. -/
theorem spawnEnemy_ignores_direction (g : Game) (d : Vector3) (r1 r2 : ℚ) :
    spawnEnemy { g with cameraDirection := d } r1 r2 =
      { spawnEnemy g r1 r2 with cameraDirection := d } := rfl

end TheGame
